import Mathlib

/-!
Verification of the resume-parsing core of `src/cv_parser.py`.

The in-scope logic (spec §1) is the section-segmentation and field-extraction
engine: `clean_section`, `extract_gpa`, `calculate_work_experience` and
`parse_resume`.  The I/O wrappers (PDF decoding, JSON persistence, directory
walking, config loading) are out of scope, exactly as the spec declares.

Shallow-embedding conventions:
* Python strings are Lean `String`s; character-level work is done on `.data`
  (`List Char`).  All definitions are structurally recursive so that concrete
  inputs evaluate inside the kernel.
* Python's `dict` (insertion-ordered, assignment replaces in place) is an
  association list `Dict` with `dinsert` / `dlookup`.
* The regular expressions appearing in the source are hand-compiled to
  scanners; each scanner's doc comment states the regex it implements and the
  reasoning for any simplification of the backtracking search.
* `datetime.now().year` is passed in as the explicit `current_year` argument
  (spec §9 flags the wall-clock dependency; claims are stated for a fixed
  calendar year).
* Exception behaviour (spec claim C8) is modelled by `parse_resumeE`, an
  `Except`-valued mirror that makes the potentially-throwing operations
  (list indexing, `int()` conversion, integer division) explicit.
-/

/-- A value stored in the resume record: Python puts either a string or an
`int` (the seniority) into the dict. -/
inductive Value where
  | str : String → Value
  | int : Int → Value
deriving DecidableEq, Repr

/-- The resume record: a Python dict modelled as an insertion-ordered
association list. -/
abbrev Dict := List (String × Value)

/-- Python dict assignment `d[k] = v`: replaces the value in place if the key
exists (keeping its position), otherwise appends the new key at the end. -/
def dinsert : Dict → String → Value → Dict
  | [], k, v => [(k, v)]
  | (k₀, v₀) :: t, k, v => if k = k₀ then (k, v) :: t else (k₀, v₀) :: dinsert t k v

/-- Python dict read `d[k]`. -/
def dlookup : Dict → String → Option Value
  | [], _ => none
  | (k₀, v) :: t, k => if k = k₀ then some v else dlookup t k

/-- The keys of the record, in insertion order (Python `dict` iteration
order). -/
def dkeys (d : Dict) : List String := d.map Prod.fst

/-- Python `str` whitespace (the ASCII part): `\s` of the `re` module and the
character set stripped by `str.strip()`. -/
def isPySpace (c : Char) : Bool :=
  c = ' ' || c = '\t' || c = '\n' || c = '\r' || c = '\x0b' || c = '\x0c'

/-- A regex word character `\w` = `[A-Za-z0-9_]` (ASCII; the parser runs on
`unidecode`d, i.e. ASCII, text). -/
def isWordChar (c : Char) : Bool := c.isAlpha || c.isDigit || c = '_'

/-- Word-character test on an optional character; `none` (outside the string)
counts as a non-word position, as in `re`'s `\b`. -/
def isWordOpt : Option Char → Bool
  | some c => isWordChar c
  | none => false

/-- Python `str.strip()` (ASCII whitespace, see `isPySpace`). -/
def pyStripList (l : List Char) : List Char :=
  ((l.dropWhile isPySpace).reverse.dropWhile isPySpace).reverse

/-- Python `str.strip()` on strings. -/
def pyStrip (s : String) : String := String.mk (pyStripList s.data)

/-- Python `text.split('\n')`: split at every newline, keeping empty pieces;
`''.split('\n') == ['']`. -/
def splitNL : List Char → List (List Char)
  | [] => [[]]
  | c :: t =>
    match splitNL t with
    | [] => [[]]
    | h :: r => if c = '\n' then [] :: h :: r else (c :: h) :: r

/-- Python `sep.join(pieces)`. -/
def joinWith (sep : List Char) : List (List Char) → List Char
  | [] => []
  | [x] => x
  | x :: y :: t => x ++ sep ++ joinWith sep (y :: t)

/-- Index of the first occurrence of `pat` as a contiguous block of `l`
(`none` if it never occurs).  This is where `re.search` anchors a pattern that
begins with the literal `pat`. -/
def firstOccurFrom (pat : List Char) : List Char → Option Nat
  | [] => if pat.isEmpty then some 0 else none
  | c :: t =>
    if pat.isPrefixOf (c :: t) then some 0
    else (firstOccurFrom pat t).map (· + 1)

/-- Python `needle in haystack` (substring test). -/
def strIn (needle hay : String) : Bool :=
  (firstOccurFrom needle.data hay.data).isSome

/-- Smallest offset at which the predicate `p` holds of the remaining suffix;
the list's length if it never holds.  Used for the lazy `[\s\S]*?` loop of
`clean_section`'s regex: the match extends minimally until the lookahead
succeeds, and the `\Z` alternative always succeeds at the end of the text. -/
def boundaryIdx (p : List Char → Bool) : List Char → Nat
  | [] => 0
  | c :: t => if p (c :: t) then 0 else boundaryIdx p t + 1

/-- The lookahead `\n[A-Z][A-Z ]+\n` of `clean_section`'s header-less regex:
a newline, an uppercase letter, then one or more of `[A-Z ]` followed by a
newline.  Backtracking inside the lookahead succeeds iff the maximal `[A-Z ]`
run after the first uppercase letter is nonempty and is followed by `'\n'`
(shorter runs end on an `[A-Z ]` character, which is never `'\n'`). -/
def allCapsAt : List Char → Bool
  | '\n' :: c :: rest =>
    c.isUpper &&
      (let m := rest.takeWhile (fun x => x.isUpper || x = ' ')
       decide (1 ≤ m.length) && ((rest.drop m.length).head? == some '\n'))
  | _ => false

/-- `re.sub(r'\n+', ' ', s)` on character lists: every maximal run of
newlines becomes a single space (a `'\n'` whose successor is also `'\n'` is
dropped; the last newline of a run becomes the space). -/
def collapseNL : List Char → List Char
  | [] => []
  | c :: t =>
    if c = '\n' then
      if t.head? = some '\n' then collapseNL t else ' ' :: collapseNL t
    else c :: collapseNL t

/-- `re.sub(r'\n+', ' ', s)` on strings. -/
def collapseStr (s : String) : String := String.mk (collapseNL s.data)

/-- `clean_section(header, text, next_header)` from the source:

    pattern = f'{header}[\s\S]*?(?=\n{next_header}|\Z)' if next_header
              else f'{header}[\s\S]*?(?=\n[A-Z][A-Z ]+\n|\Z)'
    match = re.search(pattern, text)
    if match:
        cleaned_text = re.sub(f'^{header}\s*', '', match.group(0)).strip()
        return re.sub(r'\n+', ' ', cleaned_text)
    return 'Not found'

The headers interpolated into the pattern at every call site consist of
uppercase letters and spaces only, so they act as regex literals; the model
treats `header` and `next_header` as literal strings.  `re.search` anchors at
the first occurrence of the literal `header` (a match exists there because
the `\Z` alternative of the lookahead always succeeds at the end of the
text), and the lazy `[\s\S]*?` extends to the first position at or after the
end of the header where the lookahead succeeds. -/
def clean_section (header text : String) (next_header : Option String) : String :=
  match firstOccurFrom header.data text.data with
  | none => "Not found"
  | some i =>
    let after := (text.data.drop i).drop header.data.length
    let bodyLen :=
      match next_header with
      | some nh => boundaryIdx (fun s => ('\n' :: nh.data).isPrefixOf s) after
      | none => boundaryIdx allCapsAt after
    let cleaned := pyStripList ((after.take bodyLen).dropWhile isPySpace)
    String.mk (collapseNL cleaned)

/-- Matcher for the regex `GPA: \d\.\d+` at the head of `l`: returns the full
match length.  The trailing `\d+` is greedy with nothing after it, so it
takes the maximal digit run. -/
def matchGpaLen (l : List Char) : Option Nat :=
  if ("GPA: ".data).isPrefixOf l then
    match l.drop 5 with
    | d :: '.' :: rest =>
      if d.isDigit then
        let k := (rest.takeWhile Char.isDigit).length
        if 1 ≤ k then some (7 + k) else none
      else none
    | _ => none
  else none

/-- Leftmost-match scan for `re.search(r'GPA: (\d\.\d+)', text)`, returning
group 1 (the characters after `"GPA: "`). -/
def extractGpaAux : List Char → Option (List Char)
  | [] => none
  | c :: t =>
    match matchGpaLen (c :: t) with
    | some n => some (((c :: t).drop 5).take (n - 5))
    | none => extractGpaAux t

/-- `extract_gpa(text)` from the source: first `GPA: (\d\.\d+)` match's group
1, else the sentinel. -/
def extract_gpa (text : String) : String :=
  match extractGpaAux text.data with
  | some g => String.mk g
  | none => "Not found"

/-- `re.sub(r'GPA: \d\.\d+', '', s)`: delete every non-overlapping match,
scanning left to right.  Fuel-based recursion (the fuel is the length of the
list, which bounds the number of scan steps because every step consumes at
least one character). -/
def subGpaAllAux : Nat → List Char → List Char
  | 0, l => l
  | _ + 1, [] => []
  | fuel + 1, c :: t =>
    match matchGpaLen (c :: t) with
    | some n => subGpaAllAux fuel ((c :: t).drop n)
    | none => c :: subGpaAllAux fuel t

/-- `re.sub(r'GPA: \d\.\d+', '', s)` (the EDUCATION post-processing step of
`parse_resume`). -/
def subGpaAll (l : List Char) : List Char := subGpaAllAux l.length l

/-- `re.sub(r'CAREER OBJECTIVE[\s\S]*', '', s)` (the CERTIFICATIONS
post-processing step): the single possible match runs from the first
occurrence of the literal to the end of the string, so the substitution
truncates there. -/
def truncCareer (s : String) : String :=
  match firstOccurFrom "CAREER OBJECTIVE".data s.data with
  | some i => String.mk (s.data.take i)
  | none => s

/-- Does a standalone 4-digit token (`\b\d{4}\b`) start at index `i`?  The
window is the four characters at `i`, the boundary before requires the
character at `i - 1` (when it exists) to be a non-word character, and the
boundary after requires position `i + 4` to be past the end or non-word. -/
def isYearAt (l : List Char) (i : Nat) : Bool :=
  let w := (l.drop i).take 4
  decide (w.length = 4) && w.all Char.isDigit &&
    (decide (i = 0) || !isWordOpt (l.get? (i - 1))) &&
    !isWordOpt (l.get? (i + 4))

/-- `re.findall(r'\b\d{4}\b', text)`.  Two matches of this pattern can never
overlap: a candidate at `j` with `i < j < i + 4` would need a non-word
character at `j - 1`, but that position holds one of the digits of the
candidate at `i`.  Hence the non-overlapping left-to-right `findall` scan
returns exactly the tokens at every index satisfying `isYearAt`, in order. -/
def findYearsTok (text : String) : List String :=
  ((List.range text.data.length).filter (isYearAt text.data)).map
    (fun i => String.mk ((text.data.drop i).take 4))

/-- Python `int(s)` restricted to the nonempty all-digit strings produced by
the year regex (that is the only call site). -/
def pyInt (s : String) : Int :=
  (s.data.foldl (fun a c => a * 10 + (c.toNat - '0'.toNat)) 0 : Nat)

/-- `calculate_work_experience(text)` from the source, with
`datetime.now().year` made the explicit `current_year` parameter:

    experience_years = re.findall(r'\b\d{4}\b', text)
    total_years = 0
    for year in experience_years:
        total_years += current_year - int(year)
    if experience_years:
        total_years = total_years // len(experience_years)
    return total_years

Python `//` on `int` is floor division, i.e. `Int.fdiv`. -/
def calculate_work_experience (current_year : Int) (text : String) : Int :=
  let experience_years := findYearsTok text
  let total_years :=
    experience_years.foldl (fun acc tok => acc + (current_year - pyInt tok)) (0 : Int)
  if experience_years.isEmpty then total_years
  else Int.fdiv total_years experience_years.length

/-! ### The email and phone regexes

Neither claim inspects the extracted email or phone values, but
`parse_resume` computes them, so they are embedded faithfully. -/

/-- The local-part class `[A-Za-z0-9._%+-]` of the email regex. -/
def clsLocal (c : Char) : Bool :=
  c.isAlpha || c.isDigit || c = '.' || c = '_' || c = '%' || c = '+' || c = '-'

/-- The domain class `[A-Za-z0-9.-]` of the email regex. -/
def clsDomain (c : Char) : Bool := c.isAlpha || c.isDigit || c = '.' || c = '-'

/-- The top-level-domain class `[A-Z|a-z]` of the email regex (note: the
literal `|` inside a character class is just the character `'|'`). -/
def clsTld (c : Char) : Bool := c.isUpper || c.isLower || c = '|'

/-- Backtracking for the tail `[A-Z|a-z]{2,}\b` of the email regex: `l` is
the text after the dot, `k` the candidate (greedy, descending) number of TLD
characters to consume; the final `\b` compares the word-ness of the last
consumed character and of the following one. -/
def tldTry (l : List Char) : Nat → Option Nat
  | 0 => none
  | 1 => none
  | k + 2 =>
    if isWordOpt (l.get? (k + 1)) != isWordOpt (l.get? (k + 2)) then some (k + 2)
    else tldTry l (k + 1)

/-- Backtracking for `[A-Za-z0-9.-]+\.[A-Z|a-z]{2,}\b` (the part after `@`):
`j` is the candidate (greedy, descending) number of domain characters; the
literal dot must follow them.  The maximal-run candidate always fails because
`'.'` belongs to the domain class, so the run cannot be followed by `'.'`;
the scan therefore starts at the maximal run length and descends. -/
def domTry (l : List Char) : Nat → Option Nat
  | 0 => none
  | j + 1 =>
    match
      (if l.get? (j + 1) = some '.' then
        (tldTry (l.drop (j + 2)) (((l.drop (j + 2)).takeWhile clsTld).length)).map
          (fun k => j + 2 + k)
      else none)
    with
    | some n => some n
    | none => domTry l j

/-- Match of the email regex `\b[A-Za-z0-9._%+-]+@[A-Za-z0-9.-]+\.[A-Z|a-z]{2,}\b`
anchored at the head of `l`, where `prevWord` says whether the character just
before `l` is a word character.  The greedy `[A-Za-z0-9._%+-]+` never
backtracks: `'@'` is not in the class, so only the maximal run can be
followed by `'@'`. -/
def matchEmailAt (prevWord : Bool) (l : List Char) : Option Nat :=
  match l with
  | [] => none
  | c :: _ =>
    if clsLocal c && (prevWord != isWordChar c) then
      let r := (l.takeWhile clsLocal).length
      if l.get? r = some '@' then
        (domTry (l.drop (r + 1)) (((l.drop (r + 1)).takeWhile clsDomain).length)).map
          (fun m => r + 1 + m)
      else none
    else none

/-- `re.search` for the email regex: leftmost matching start position wins. -/
def searchEmailAux (prevWord : Bool) : List Char → Option (List Char)
  | [] => none
  | c :: t =>
    match matchEmailAt prevWord (c :: t) with
    | some n => some ((c :: t).take n)
    | none => searchEmailAux (isWordChar c) t

/-- The separator class `[\s.-]` of the phone regex. -/
def clsSep (c : Char) : Bool := isPySpace c || c = '.' || c = '-'

/-- At least `n` characters, with the first `n` all digits. -/
def digitRun (l : List Char) (n : Nat) : Bool :=
  decide ((l.take n).length = n) && (l.take n).all Char.isDigit

/-- The core `\(?\d{3}\)?[\s.-]\d{3}[\s.-]\d{4}` of the phone regex.  The two
optional literals never need backtracking: if the optional character is
present but the continuation fails, the alternative without it immediately
fails too (`'('` is not a digit, `')'` is not in `[\s.-]`). -/
def phoneCore (l : List Char) : Option Nat :=
  let p₁ := if l.head? = some '(' then 1 else 0
  let l₁ := l.drop p₁
  if digitRun l₁ 3 then
    let l₂ := l₁.drop 3
    let p₂ := if l₂.head? = some ')' then 1 else 0
    let l₃ := l₂.drop p₂
    match l₃ with
    | s₁ :: r₁ =>
      if clsSep s₁ && digitRun r₁ 3 then
        match r₁.drop 3 with
        | s₂ :: r₂ =>
          if clsSep s₂ && digitRun r₂ 4 then some (p₁ + 3 + p₂ + 1 + 3 + 1 + 4)
          else none
        | [] => none
      else none
    | [] => none
  else none

/-- Match of the phone regex `(\+\d{1,2}\s)?\(?\d{3}\)?[\s.-]\d{3}[\s.-]\d{4}`
anchored at the head of `l`; the optional greedy group tries the two-digit
country code, then the one-digit one, then no group at all. -/
def matchPhoneAt (l : List Char) : Option Nat :=
  match
    (match l with
     | '+' :: d₁ :: d₂ :: s :: rest =>
       if d₁.isDigit && d₂.isDigit && isPySpace s then (phoneCore rest).map (· + 4)
       else none
     | _ => none)
  with
  | some n => some n
  | none =>
    match
      (match l with
       | '+' :: d₁ :: s :: rest =>
         if d₁.isDigit && isPySpace s then (phoneCore rest).map (· + 3)
         else none
       | _ => none)
    with
    | some n => some n
    | none => phoneCore l

/-- `re.search` for the phone regex (no `\b`, so no context is needed). -/
def searchPhoneAux : List Char → Option (List Char)
  | [] => none
  | c :: t =>
    match matchPhoneAt (c :: t) with
    | some n => some ((c :: t).take n)
    | none => searchPhoneAux t

/-! ### parse_resume -/

/-- The `unidecode` library call at the top of `parse_resume`.  The library
folds non-ASCII characters to ASCII approximations and is the identity on
every ASCII string; all inputs evaluated concretely in this development are
ASCII, and every universally-quantified claim proved about `parse_resume` is
a property of the record's shape or of the post-normalization text, so the
folding is modelled as the identity map. -/
def unidecode (s : String) : String := s

/-- `resume_data['name']`: `' '.join(lines[:2]).strip()`. -/
def nameVal (text : String) : Value :=
  Value.str (String.mk (pyStripList (joinWith [' '] ((splitNL text.data).take 2))))

/-- `resume_data['job_title']`: `lines[3].strip() if len(lines) > 3 else
'Not found'` (`get? 3` succeeds exactly when `len(lines) > 3`). -/
def jtVal (text : String) : Value :=
  Value.str
    (match (splitNL text.data).get? 3 with
     | some s => String.mk (pyStripList s)
     | none => "Not found")

/-- `resume_data['email']`: first email-regex match or the sentinel. -/
def emailVal (text : String) : Value :=
  Value.str
    (match searchEmailAux false text.data with
     | some m => String.mk m
     | none => "Not found")

/-- `resume_data['phone']`: first phone-regex match or the sentinel. -/
def phoneVal (text : String) : Value :=
  Value.str
    (match searchPhoneAux text.data with
     | some m => String.mk m
     | none => "Not found")

/-- The record just before the hyperlink loop: the basic fields followed by
the three social platforms initialized to the sentinel (the first `for
platform in social_media` loop of the source). -/
def preSocial (text : String) : Dict :=
  [("name", nameVal text), ("job_title", jtVal text), ("email", emailVal text),
   ("phone", phoneVal text), ("linkedin", Value.str "Not found"),
   ("facebook", Value.str "Not found"), ("twitter", Value.str "Not found")]

/-- One iteration of the hyperlink loop body:

    for platform, url in social_media.items():
        if url in link and resume_data[platform] == 'Not found':
            resume_data[platform] = link
            break

The platforms are tried in the dict's insertion order (linkedin, facebook,
twitter) and the `break` stops after the first adoption. -/
def socialPass (d : Dict) (link : String) : Dict :=
  if strIn "linkedin.com" link = true ∧
      dlookup d "linkedin" = some (Value.str "Not found") then
    dinsert d "linkedin" (Value.str link)
  else if strIn "facebook.com" link = true ∧
      dlookup d "facebook" = some (Value.str "Not found") then
    dinsert d "facebook" (Value.str link)
  else if strIn "twitter.com" link = true ∧
      dlookup d "twitter" = some (Value.str "Not found") then
    dinsert d "twitter" (Value.str link)
  else d

/-- The `for link in links` loop. -/
def socialLoop (links : List String) (d : Dict) : Dict := links.foldl socialPass d

/-- `clean_section('WORK EXPERIENCE', text, 'PROJECTS')` — computed twice by
the source (once in the section loop, once for the tenure block). -/
def wesOf (text : String) : String := clean_section "WORK EXPERIENCE" text (some "PROJECTS")

/-- The section loop of `parse_resume`, unrolled over its literal boundary
list `[('EDUCATION','SKILLS'), ('SKILLS','CERTIFICATIONS'),
('CERTIFICATIONS','CAREER OBJECTIVE'), ('WORK EXPERIENCE','PROJECTS'),
('PROJECTS', None)]`, followed by the career-objective and work-experience
assignments.  Per iteration the source stores the cleaned section under
`section.lower().replace(' ', '_')` and then re-assigns
`resume_data['gpa'] = extract_gpa(text)` (inside the loop, hence five
times).  EDUCATION gets the `GPA: \d\.\d+` substring removed, CERTIFICATIONS
is truncated at `CAREER OBJECTIVE`. -/
def postCommon (text : String) (d : Dict) : Dict :=
  let d := dinsert d "education"
    (Value.str (String.mk (subGpaAll (clean_section "EDUCATION" text (some "SKILLS")).data)))
  let d := dinsert d "gpa" (Value.str (extract_gpa text))
  let d := dinsert d "skills" (Value.str (clean_section "SKILLS" text (some "CERTIFICATIONS")))
  let d := dinsert d "gpa" (Value.str (extract_gpa text))
  let d := dinsert d "certifications"
    (Value.str (truncCareer (clean_section "CERTIFICATIONS" text (some "CAREER OBJECTIVE"))))
  let d := dinsert d "gpa" (Value.str (extract_gpa text))
  let d := dinsert d "work_experience" (Value.str (clean_section "WORK EXPERIENCE" text (some "PROJECTS")))
  let d := dinsert d "gpa" (Value.str (extract_gpa text))
  let d := dinsert d "projects" (Value.str (clean_section "PROJECTS" text none))
  let d := dinsert d "gpa" (Value.str (extract_gpa text))
  let d := dinsert d "career_objective"
    (Value.str (clean_section "CAREER OBJECTIVE" text (some "WORK EXPERIENCE")))
  dinsert d "work_experience" (Value.str (wesOf text))

/-- Everything after the hyperlink loop: the section loop, the
career-objective section, the work-experience section and the seniority. -/
def postSocial (text : String) (current_year : Int) (d : Dict) : Dict :=
  dinsert (postCommon text d) "seniority"
    (Value.int (calculate_work_experience current_year (wesOf text)))

/-- `parse_resume(text, links)` from the source, with the wall-clock year of
the tenure computation passed explicitly. -/
def parse_resume (current_year : Int) (text : String) (links : List String) : Dict :=
  let text := unidecode text
  postSocial text current_year (socialLoop links (preSocial text))

/-! ### Exception-explicit mirror (spec §7: "no fatal error paths")

`parse_resumeE` recomputes `parse_resume` in `Except String`, making every
operation of the source that can raise in Python an explicit `throw`:
`lines[3]` (IndexError), `int(year)` (ValueError) and `// len(...)`
(ZeroDivisionError).  The regex calls cannot raise for the literal patterns
the source uses. -/

/-- Python `int(s)`: succeeds on the nonempty all-digit strings the year
regex produces, raises `ValueError` otherwise. -/
def pyIntE (s : String) : Except String Int :=
  if s.data ≠ [] ∧ s.data.all Char.isDigit = true then Except.ok (pyInt s)
  else Except.error "ValueError: invalid literal for int()"

/-- The accumulation loop of `calculate_work_experience`, with each `int()`
conversion explicit. -/
def sumYearsE (current_year : Int) : List String → Int → Except String Int
  | [], acc => Except.ok acc
  | tok :: t, acc =>
    match pyIntE tok with
    | Except.error e => Except.error e
    | Except.ok v => sumYearsE current_year t (acc + (current_year - v))

/-- `calculate_work_experience` with explicit `int()` failures and an
explicit division-by-zero check on `total_years // len(experience_years)`. -/
def calculate_work_experienceE (current_year : Int) (text : String) : Except String Int :=
  let toks := findYearsTok text
  match sumYearsE current_year toks 0 with
  | Except.error e => Except.error e
  | Except.ok total =>
    if toks.isEmpty then Except.ok total
    else if toks.length = 0 then
      Except.error "ZeroDivisionError: integer division or modulo by zero"
    else Except.ok (Int.fdiv total toks.length)

/-- `lines[3].strip() if len(lines) > 3 else 'Not found'`, with the indexing
operation (and its potential IndexError) explicit. -/
def jobTitleE (lines : List (List Char)) : Except String String :=
  if 3 < lines.length then
    match lines.get? 3 with
    | some s => Except.ok (String.mk (pyStripList s))
    | none => Except.error "IndexError: list index out of range"
  else Except.ok "Not found"

/-- The record up to the hyperlink loop, with the `lines[3]` indexing
explicit. -/
def preSocialE (text : String) : Except String Dict :=
  match jobTitleE (splitNL text.data) with
  | Except.error e => Except.error e
  | Except.ok jt =>
    Except.ok
      [("name", nameVal text), ("job_title", Value.str jt), ("email", emailVal text),
       ("phone", phoneVal text), ("linkedin", Value.str "Not found"),
       ("facebook", Value.str "Not found"), ("twitter", Value.str "Not found")]

/-- Everything after the hyperlink loop, with the tenure computation's
exceptions explicit. -/
def postSocialE (text : String) (current_year : Int) (d : Dict) : Except String Dict :=
  match calculate_work_experienceE current_year (wesOf text) with
  | Except.error e => Except.error e
  | Except.ok sen => Except.ok (dinsert (postCommon text d) "seniority" (Value.int sen))

/-- `parse_resume` in `Except String`: every potentially-raising operation of
the source is an explicit `throw`. -/
def parse_resumeE (current_year : Int) (text : String) (links : List String) :
    Except String Dict :=
  let text := unidecode text
  match preSocialE text with
  | Except.error e => Except.error e
  | Except.ok d => postSocialE text current_year (socialLoop links d)

/-- The claims about link resolution restrict attention to hyperlink sets in
which each link mentions at most one platform domain (the source's `break`
makes multi-domain links ambiguous, see C7). -/
def atMostOneDomain (link : String) : Bool :=
  decide
    (((if strIn "linkedin.com" link then 1 else 0) +
      (if strIn "facebook.com" link then 1 else 0) +
      (if strIn "twitter.com" link then 1 else 0) : Nat) ≤ 1)

/-- The first link of the set containing the given domain substring, or the
sentinel — what the Link Resolver adopts for a platform (spec §4.4). -/
def firstLinkFor (dom : String) (links : List String) : String :=
  match links.find? (fun l => strIn dom l) with
  | some l => l
  | none => "Not found"

/-- The text of the spec's C2 example. -/
def c2text : String :=
  "Jane Doe\nSoftware Engineer\n\nEDUCATION\nBS CS\nGPA: 3.8\nSKILLS\nPython"

/-! ## Supporting lemmas -/

/-- Substring search succeeds exactly on infixes. -/
lemma firstOccurFrom_eq_none_iff (p l : List Char) :
    firstOccurFrom p l = none ↔ ¬ p <:+: l := by
  induction l with
  | nil =>
    cases p with
    | nil => simp [firstOccurFrom, List.isEmpty]
    | cons a q => simp [firstOccurFrom, List.isEmpty, List.infix_nil]
  | cons c t ih =>
    by_cases hp : p.isPrefixOf (c :: t)
    · have hpre : p <+: c :: t := List.isPrefixOf_iff_prefix.mp hp
      simp [firstOccurFrom, hp, List.infix_cons_iff, hpre]
    · have hnp : ¬ p <+: c :: t := fun hcon => hp (List.isPrefixOf_iff_prefix.mpr hcon)
      simp [firstOccurFrom, hp, List.infix_cons_iff, hnp, ih]

/-- The collapse step removes every newline. -/
lemma collapseNL_no_nl (l : List Char) : '\n' ∉ collapseNL l := by
  induction l with
  | nil => simp [collapseNL]
  | cons c t ih =>
    simp only [collapseNL]
    by_cases hc : c = '\n'
    · simp only [if_pos hc]
      by_cases hh : t.head? = some '\n'
      · simp only [if_pos hh]; exact ih
      · simp only [if_neg hh]
        intro hmem
        rcases List.mem_cons.mp hmem with h1 | h1
        · exact absurd h1.symm (by decide)
        · exact ih h1
    · simp only [if_neg hc]
      intro hmem
      rcases List.mem_cons.mp hmem with h1 | h1
      · exact hc h1.symm
      · exact ih h1

/-- Collapsing is the identity on newline-free text. -/
lemma collapseNL_of_no_nl (l : List Char) (h : '\n' ∉ l) : collapseNL l = l := by
  induction l with
  | nil => rfl
  | cons c t ih =>
    have hc : ¬ c = '\n' := fun he => h (he ▸ List.mem_cons_self c t)
    simp only [collapseNL, if_neg hc]
    rw [ih (fun hm => h (List.mem_cons_of_mem c hm))]

/-- Every token the year regex returns is a nonempty all-digit string. -/
lemma findYearsTok_digits (t : String) :
    ∀ tok ∈ findYearsTok t, tok.data ≠ [] ∧ tok.data.all Char.isDigit = true := by
  intro tok htok
  unfold findYearsTok at htok
  simp only [List.mem_map, List.mem_filter, List.mem_range] at htok
  obtain ⟨i, ⟨_, hyear⟩, rfl⟩ := htok
  unfold isYearAt at hyear
  simp only [Bool.and_eq_true, decide_eq_true_eq] at hyear
  refine ⟨?_, hyear.1.1.2⟩
  intro hnil
  have hlen := hyear.1.1.1
  have hnil2 : List.take 4 (List.drop i t.data) = [] := hnil
  rw [hnil2] at hlen
  simp at hlen

/-- The explicit `int()` loop succeeds on the regex's tokens. -/
lemma sumYearsE_ok (y : Int) (toks : List String)
    (h : ∀ tok ∈ toks, tok.data ≠ [] ∧ tok.data.all Char.isDigit = true) (acc : Int) :
    sumYearsE y toks acc =
      Except.ok (toks.foldl (fun a tok => a + (y - pyInt tok)) acc) := by
  induction toks generalizing acc with
  | nil => rfl
  | cons tok t ih =>
    have htok := h tok (by simp)
    simp only [sumYearsE, pyIntE, if_pos htok, List.foldl_cons]
    exact ih (fun x hx => h x (by simp [hx])) _

/-- The tenure computation never raises: the `Except` mirror always returns
the pure value. -/
lemma calcE_ok (y : Int) (t : String) :
    calculate_work_experienceE y t = Except.ok (calculate_work_experience y t) := by
  simp only [calculate_work_experienceE, calculate_work_experience]
  rw [sumYearsE_ok y _ (findYearsTok_digits t) 0]
  by_cases h : (findYearsTok t).isEmpty
  · simp [h]
  · have hlen : (findYearsTok t).length ≠ 0 := by
      cases hT : findYearsTok t with
      | nil => rw [hT] at h; simp at h
      | cons a l => simp
    simp [h, hlen]

/-- Left fold of additions as a sum over the mapped list. -/
lemma foldl_add_sum (y : Int) (l : List String) (a : Int) :
    l.foldl (fun acc tok => acc + (y - pyInt tok)) a =
      a + (l.map (fun tok => y - pyInt tok)).sum := by
  induction l generalizing a with
  | nil => simp
  | cons x t ih => simp [List.foldl_cons, ih, List.sum_cons]; ring

/-! ## Claims -/

/-- C3: the tenure (seniority) value is the sum over every standalone 4-digit
token of (current_year − token), floor-divided by the token count; a text
with no token (in particular the empty string) gives exactly 0 and the
computation never divides by zero (the `Except` mirror always returns `ok`);
the spec's example "Worked 2018 to 2020" in 2024 gives 5. -/
theorem c3_tenure :
    (∀ (y : Int) (t : String),
       calculate_work_experience y t =
         if findYearsTok t = [] then 0
         else
           Int.fdiv (((findYearsTok t).map (fun tok => y - pyInt tok)).sum)
             ((findYearsTok t).length)) ∧
    (∀ (y : Int) (t : String),
       calculate_work_experienceE y t = Except.ok (calculate_work_experience y t)) ∧
    calculate_work_experience 2024 "" = 0 ∧
    calculate_work_experience 2024 "Worked 2018 to 2020" = 5 := by
  refine ⟨?_, calcE_ok, by decide, by decide⟩
  intro y t
  unfold calculate_work_experience
  by_cases hT : findYearsTok t = []
  · simp [hT]
  · have hne : ¬ (findYearsTok t).isEmpty := by
      cases h : findYearsTok t with
      | nil => exact absurd h hT
      | cons a l => simp
    simp [hne, hT, foldl_add_sum]

/-- C5: when the header substring never occurs in the text, `clean_section`
returns the sentinel "Not found". -/
theorem c5_missing_header (header text : String) (nh : Option String)
    (h : ¬ header.data <:+: text.data) : clean_section header text nh = "Not found" := by
  have h0 : firstOccurFrom header.data text.data = none :=
    (firstOccurFrom_eq_none_iff _ _).mpr h
  simp [clean_section, h0]

/-- Witness for C5 at a concrete header-free text. -/
theorem c5_missing_header_witness :
    ¬ ("EDUCATION".data <:+: "no headers in this text".data) ∧
      clean_section "EDUCATION" "no headers in this text" (some "SKILLS") = "Not found" :=
  ⟨by decide, c5_missing_header "EDUCATION" "no headers in this text" (some "SKILLS") (by decide)⟩

/-- C6: the result of `clean_section` never contains two consecutive
newlines (it contains no newline at all), so collapsing newline runs again is
a no-op. -/
theorem c6_no_consecutive_newlines (h t : String) (nh : Option String) :
    ¬ (['\n', '\n'] <:+: (clean_section h t nh).data) ∧
      collapseStr (clean_section h t nh) = clean_section h t nh := by
  cases hocc : firstOccurFrom h.data t.data with
  | none =>
    simp only [clean_section, hocc]
    exact ⟨by decide, rfl⟩
  | some i =>
    simp only [clean_section, hocc]
    constructor
    · intro hinf
      exact collapseNL_no_nl _ (hinf.sublist.subset (List.mem_cons_self _ _))
    · unfold collapseStr
      rw [show ∀ l : List Char, (String.mk l).data = l from fun _ => rfl,
        collapseNL_of_no_nl _ (collapseNL_no_nl _)]

/-- Looking up the key just written. -/
lemma dlookup_dinsert_self (d : Dict) (k : String) (v : Value) :
    dlookup (dinsert d k v) k = some v := by
  induction d with
  | nil => simp [dinsert, dlookup]
  | cons p t ih =>
    obtain ⟨k₀, v₀⟩ := p
    by_cases h : k = k₀
    · simp [dinsert, dlookup, h]
    · simp only [dinsert, if_neg h, dlookup]
      exact ih

/-- Writing one key leaves every other key's value unchanged. -/
lemma dlookup_dinsert_ne (d : Dict) (k : String) (v : Value) (q : String) (h : q ≠ k) :
    dlookup (dinsert d k v) q = dlookup d q := by
  induction d with
  | nil => simp [dinsert, dlookup, h]
  | cons p t ih =>
    obtain ⟨k₀, v₀⟩ := p
    by_cases hk : k = k₀
    · subst hk
      simp only [dinsert, if_pos rfl, dlookup]
      rw [if_neg h, if_neg h]
    · simp only [dinsert, if_neg hk, dlookup]
      by_cases hq : q = k₀
      · rw [if_pos hq, if_pos hq]
      · rw [if_neg hq, if_neg hq]
        exact ih

/-- The hyperlink loop only rewrites the three social entries: a record of
the `preSocial` shape keeps its shape, with possibly different social
values. -/
lemma socialLoop_shape7 (links : List String) (a b c d₀ : Value) (e f g : String) :
    ∃ e₂ f₂ g₂ : String,
      socialLoop links
        [("name", a), ("job_title", b), ("email", c), ("phone", d₀),
         ("linkedin", Value.str e), ("facebook", Value.str f), ("twitter", Value.str g)] =
        [("name", a), ("job_title", b), ("email", c), ("phone", d₀),
         ("linkedin", Value.str e₂), ("facebook", Value.str f₂), ("twitter", Value.str g₂)] := by
  induction links generalizing e f g with
  | nil => exact ⟨e, f, g, rfl⟩
  | cons l rest ih =>
    show ∃ e₂ f₂ g₂, socialLoop rest (socialPass _ l) = _
    unfold socialPass
    split
    · exact ih l f g
    · split
      · exact ih e l g
      · split
        · exact ih e f l
        · exact ih e f g

/-- `parse_resume` always produces a record of the fixed shape: the basic
fields, some social strings, then the section fields. -/
lemma parse_resume_shape (y : Int) (t : String) (links : List String) :
    ∃ li fb tw : String,
      parse_resume y t links =
        postSocial (unidecode t) y
          [("name", nameVal (unidecode t)), ("job_title", jtVal (unidecode t)),
           ("email", emailVal (unidecode t)), ("phone", phoneVal (unidecode t)),
           ("linkedin", Value.str li), ("facebook", Value.str fb),
           ("twitter", Value.str tw)] := by
  obtain ⟨li, fb, tw, hS⟩ :=
    socialLoop_shape7 links (nameVal (unidecode t)) (jtVal (unidecode t))
      (emailVal (unidecode t)) (phoneVal (unidecode t)) "Not found" "Not found" "Not found"
  refine ⟨li, fb, tw, ?_⟩
  simp only [parse_resume, preSocial]
  rw [hS]

/-- Unfolding the section/tenure phase over a record of the `preSocial`
shape: the thirteen dict assignments produce the fixed fifteen-entry record
(the five `gpa` writes all store the same value; the second
`work_experience` write lands in the slot of the first). -/
lemma postSocial_shape (text : String) (y : Int) (a b c d₀ e f g : Value) :
    postSocial text y
      [("name", a), ("job_title", b), ("email", c), ("phone", d₀),
       ("linkedin", e), ("facebook", f), ("twitter", g)] =
      [("name", a), ("job_title", b), ("email", c), ("phone", d₀),
       ("linkedin", e), ("facebook", f), ("twitter", g),
       ("education",
         Value.str (String.mk (subGpaAll (clean_section "EDUCATION" text (some "SKILLS")).data))),
       ("gpa", Value.str (extract_gpa text)),
       ("skills", Value.str (clean_section "SKILLS" text (some "CERTIFICATIONS"))),
       ("certifications",
         Value.str (truncCareer (clean_section "CERTIFICATIONS" text (some "CAREER OBJECTIVE")))),
       ("work_experience", Value.str (wesOf text)),
       ("projects", Value.str (clean_section "PROJECTS" text none)),
       ("career_objective",
         Value.str (clean_section "CAREER OBJECTIVE" text (some "WORK EXPERIENCE"))),
       ("seniority", Value.int (calculate_work_experience y (wesOf text)))] := by
  simp [postSocial, postCommon, dinsert, wesOf]

/-- C9: for a fixed calendar year, two `parse_resume` calls on identical text
and identical link lists return identical records (the embedding makes the
wall-clock year an explicit argument, so it is the only ambient input). -/
theorem c9_deterministic (y : Int) (t₁ t₂ : String) (l₁ l₂ : List String)
    (h₁ : t₁ = t₂) (h₂ : l₁ = l₂) : parse_resume y t₁ l₁ = parse_resume y t₂ l₂ := by
  rw [h₁, h₂]

/-- Witness for C9 at a concrete document. -/
theorem c9_deterministic_witness :
    ("Jane Doe\nDev" : String) = "Jane Doe\nDev" ∧
      parse_resume 2024 "Jane Doe\nDev" ["https://x.com"] =
        parse_resume 2024 "Jane Doe\nDev" ["https://x.com"] :=
  ⟨rfl, c9_deterministic 2024 "Jane Doe\nDev" "Jane Doe\nDev" ["https://x.com"]
    ["https://x.com"] rfl rfl⟩

set_option maxHeartbeats 4000000 in
/-- C1 counterexample: the text contains the literal substring
`linkedin.com/janedoe`, yet with an empty link list the linkedin field is the
sentinel (no text-pattern social extraction exists in the code), and a
conflicting hyperlink list does change the value (to the link). -/
theorem c1_counterexample :
    dlookup (parse_resume 2024 "Jane Doe\nDev\n\nSee linkedin.com/janedoe" []) "linkedin" =
        some (Value.str "Not found") ∧
      dlookup (parse_resume 2024 "Jane Doe\nDev\n\nSee linkedin.com/janedoe"
          ["https://linkedin.com/in/conflicting"]) "linkedin" =
        some (Value.str "https://linkedin.com/in/conflicting") :=
  ⟨rfl, rfl⟩

/-- C1 (amended): `parse_resume` performs no text-pattern social extraction:
whatever the input text — in particular one containing a literal
`<platform>.com/<handle>` substring — an empty hyperlink list leaves every
social field at the sentinel; the hyperlink list alone determines the social
fields. -/
theorem c1_social_from_links_only (y : Int) (t : String) :
    dlookup (parse_resume y t []) "linkedin" = some (Value.str "Not found") ∧
      dlookup (parse_resume y t []) "facebook" = some (Value.str "Not found") ∧
      dlookup (parse_resume y t []) "twitter" = some (Value.str "Not found") := by
  have hE : parse_resume y t [] =
      postSocial (unidecode t) y (preSocial (unidecode t)) := rfl
  rw [hE, show preSocial (unidecode t) =
      [("name", nameVal (unidecode t)), ("job_title", jtVal (unidecode t)),
       ("email", emailVal (unidecode t)), ("phone", phoneVal (unidecode t)),
       ("linkedin", Value.str "Not found"), ("facebook", Value.str "Not found"),
       ("twitter", Value.str "Not found")] from rfl, postSocial_shape]
  exact ⟨rfl, rfl, rfl⟩

set_option maxHeartbeats 4000000 in
/-- C2 counterexample: on the spec's example text the name field is the
space-join of the first two lines, `"Jane Doe Software Engineer"`, not
`"Jane Doe"`. -/
theorem c2_counterexample :
    dlookup (parse_resume 2024 c2text []) "name" =
        some (Value.str "Jane Doe Software Engineer") ∧
      ("Jane Doe Software Engineer" : String) ≠ "Jane Doe" :=
  ⟨rfl, by decide⟩

set_option maxHeartbeats 8000000 in
/-- C2 (amended): on the example text with no links,
name = "Jane Doe Software Engineer" (first two lines space-joined),
gpa = "3.8", education = "BS CS " (the GPA substring is deleted in place,
leaving the trailing space), linkedin = "Not found". -/
theorem c2_example :
    dlookup (parse_resume 2024 c2text []) "name" =
        some (Value.str "Jane Doe Software Engineer") ∧
      dlookup (parse_resume 2024 c2text []) "gpa" = some (Value.str "3.8") ∧
      dlookup (parse_resume 2024 c2text []) "education" = some (Value.str "BS CS ") ∧
      dlookup (parse_resume 2024 c2text []) "linkedin" = some (Value.str "Not found") :=
  ⟨rfl, rfl, rfl, rfl⟩

/-- C4: every record has the fourteen spec fields, each present; seniority
holds an integer, every other field a string. -/
theorem c4_record_shape (y : Int) (t : String) (links : List String) :
    (∃ s, dlookup (parse_resume y t links) "name" = some (Value.str s)) ∧
      (∃ s, dlookup (parse_resume y t links) "job_title" = some (Value.str s)) ∧
      (∃ s, dlookup (parse_resume y t links) "email" = some (Value.str s)) ∧
      (∃ s, dlookup (parse_resume y t links) "phone" = some (Value.str s)) ∧
      (∃ s, dlookup (parse_resume y t links) "linkedin" = some (Value.str s)) ∧
      (∃ s, dlookup (parse_resume y t links) "facebook" = some (Value.str s)) ∧
      (∃ s, dlookup (parse_resume y t links) "twitter" = some (Value.str s)) ∧
      (∃ s, dlookup (parse_resume y t links) "education" = some (Value.str s)) ∧
      (∃ s, dlookup (parse_resume y t links) "skills" = some (Value.str s)) ∧
      (∃ s, dlookup (parse_resume y t links) "certifications" = some (Value.str s)) ∧
      (∃ s, dlookup (parse_resume y t links) "career_objective" = some (Value.str s)) ∧
      (∃ s, dlookup (parse_resume y t links) "gpa" = some (Value.str s)) ∧
      (∃ s, dlookup (parse_resume y t links) "work_experience" = some (Value.str s)) ∧
      (∃ n : Int, dlookup (parse_resume y t links) "seniority" = some (Value.int n)) := by
  obtain ⟨li, fb, tw, hE⟩ := parse_resume_shape y t links
  rw [hE, postSocial_shape]
  exact ⟨⟨_, rfl⟩, ⟨_, rfl⟩, ⟨_, rfl⟩, ⟨_, rfl⟩, ⟨_, rfl⟩, ⟨_, rfl⟩, ⟨_, rfl⟩, ⟨_, rfl⟩,
    ⟨_, rfl⟩, ⟨_, rfl⟩, ⟨_, rfl⟩, ⟨_, rfl⟩, ⟨_, rfl⟩, ⟨_, rfl⟩⟩

/-- C10: besides the spec's fourteen fields the record carries a fifteenth
key `projects` with the segmented PROJECTS section. -/
theorem c10_projects_key (y : Int) (t : String) (links : List String) :
    dkeys (parse_resume y t links) =
        ["name", "job_title", "email", "phone", "linkedin", "facebook", "twitter",
         "education", "gpa", "skills", "certifications", "work_experience", "projects",
         "career_objective", "seniority"] ∧
      dlookup (parse_resume y t links) "projects" =
        some (Value.str (clean_section "PROJECTS" (unidecode t) none)) := by
  obtain ⟨li, fb, tw, hE⟩ := parse_resume_shape y t links
  rw [hE, postSocial_shape]
  exact ⟨rfl, rfl⟩

/-- The explicit `lines[3]` read of the job title never raises. -/
lemma jobTitleE_ok (lines : List (List Char)) :
    jobTitleE lines =
      Except.ok
        (match lines.get? 3 with
         | some s => String.mk (pyStripList s)
         | none => "Not found") := by
  unfold jobTitleE
  by_cases h : 3 < lines.length
  · rw [if_pos h]
    obtain ⟨s, hs⟩ : ∃ s, lines.get? 3 = some s := by
      cases hg : lines.get? 3 with
      | none => exact absurd (List.get?_eq_none.mp hg) (by omega)
      | some s => exact ⟨s, rfl⟩
    rw [hs]
  · rw [if_neg h]
    have hg : lines.get? 3 = none := List.get?_eq_none.mpr (by omega)
    rw [hg]

/-- The pre-link part of the record never raises. -/
lemma preSocialE_ok (t : String) : preSocialE t = Except.ok (preSocial t) := by
  unfold preSocialE preSocial jtVal
  rw [jobTitleE_ok]

/-- The post-link part of the record never raises. -/
lemma postSocialE_ok (t : String) (y : Int) (d : Dict) :
    postSocialE t y d = Except.ok (postSocial t y d) := by
  unfold postSocialE postSocial
  rw [calcE_ok]

/-- C8: `parse_resume` terminates normally on every text and link list — the
exception-explicit mirror always returns `ok` with the pure record. -/
theorem c8_no_exception (y : Int) (t : String) (links : List String) :
    parse_resumeE y t links = Except.ok (parse_resume y t links) := by
  simp only [parse_resumeE, parse_resume]
  rw [preSocialE_ok]
  exact postSocialE_ok _ _ _

/-- A link that mentions facebook.com mentions no linkedin.com when it
mentions at most one platform domain. -/
lemma amo_fb_li (l : String) (hA : atMostOneDomain l = true)
    (hf : strIn "facebook.com" l = true) : strIn "linkedin.com" l = false := by
  by_cases h : strIn "linkedin.com" l
  · exfalso
    simp only [atMostOneDomain, h, hf, if_true, decide_eq_true_eq] at hA
    split at hA <;> omega
  · simpa using h

/-- A link that mentions twitter.com mentions no linkedin.com when it
mentions at most one platform domain. -/
lemma amo_tw_li (l : String) (hA : atMostOneDomain l = true)
    (ht : strIn "twitter.com" l = true) : strIn "linkedin.com" l = false := by
  by_cases h : strIn "linkedin.com" l
  · exfalso
    simp only [atMostOneDomain, h, ht, if_true, decide_eq_true_eq] at hA
    split at hA <;> omega
  · simpa using h

/-- A link that mentions twitter.com mentions no facebook.com when it
mentions at most one platform domain. -/
lemma amo_tw_fb (l : String) (hA : atMostOneDomain l = true)
    (ht : strIn "twitter.com" l = true) : strIn "facebook.com" l = false := by
  by_cases h : strIn "facebook.com" l
  · exfalso
    simp only [atMostOneDomain, h, ht, if_true, decide_eq_true_eq] at hA
    split at hA <;> omega
  · simpa using h

/-- Once the linkedin field holds a non-sentinel value, no later link
overwrites it. -/
lemma socialLoop_keep_li (links : List String) (d : Dict) (v : String)
    (hv : v ≠ "Not found") (hd : dlookup d "linkedin" = some (Value.str v)) :
    dlookup (socialLoop links d) "linkedin" = some (Value.str v) := by
  induction links generalizing d with
  | nil => exact hd
  | cons l rest ih =>
    show dlookup (socialLoop rest (socialPass d l)) "linkedin" = _
    apply ih
    unfold socialPass
    split
    · rename_i hg
      rw [hd] at hg
      exact absurd (Value.str.inj (Option.some.inj hg.2)) hv
    · split
      · rw [dlookup_dinsert_ne _ _ _ _ (by decide)]; exact hd
      · split
        · rw [dlookup_dinsert_ne _ _ _ _ (by decide)]; exact hd
        · exact hd

/-- Once the facebook field holds a non-sentinel value, no later link
overwrites it. -/
lemma socialLoop_keep_fb (links : List String) (d : Dict) (v : String)
    (hv : v ≠ "Not found") (hd : dlookup d "facebook" = some (Value.str v)) :
    dlookup (socialLoop links d) "facebook" = some (Value.str v) := by
  induction links generalizing d with
  | nil => exact hd
  | cons l rest ih =>
    show dlookup (socialLoop rest (socialPass d l)) "facebook" = _
    apply ih
    unfold socialPass
    split
    · rw [dlookup_dinsert_ne _ _ _ _ (by decide)]; exact hd
    · split
      · rename_i hg
        rw [hd] at hg
        exact absurd (Value.str.inj (Option.some.inj hg.2)) hv
      · split
        · rw [dlookup_dinsert_ne _ _ _ _ (by decide)]; exact hd
        · exact hd

/-- Once the twitter field holds a non-sentinel value, no later link
overwrites it. -/
lemma socialLoop_keep_tw (links : List String) (d : Dict) (v : String)
    (hv : v ≠ "Not found") (hd : dlookup d "twitter" = some (Value.str v)) :
    dlookup (socialLoop links d) "twitter" = some (Value.str v) := by
  induction links generalizing d with
  | nil => exact hd
  | cons l rest ih =>
    show dlookup (socialLoop rest (socialPass d l)) "twitter" = _
    apply ih
    unfold socialPass
    split
    · rw [dlookup_dinsert_ne _ _ _ _ (by decide)]; exact hd
    · split
      · rw [dlookup_dinsert_ne _ _ _ _ (by decide)]; exact hd
      · split
        · rename_i hg
          rw [hd] at hg
          exact absurd (Value.str.inj (Option.some.inj hg.2)) hv
        · exact hd

/-- While the linkedin field is still the sentinel, the loop adopts the first
link containing `linkedin.com` (linkedin is the first platform tried, so no
restriction on the links is needed). -/
lemma socialLoop_first_li (links : List String) (d : Dict)
    (hd : dlookup d "linkedin" = some (Value.str "Not found")) :
    dlookup (socialLoop links d) "linkedin" =
      some (Value.str (firstLinkFor "linkedin.com" links)) := by
  induction links generalizing d with
  | nil => simpa [firstLinkFor, List.find?] using hd
  | cons l rest ih =>
    show dlookup (socialLoop rest (socialPass d l)) "linkedin" = _
    by_cases hl : strIn "linkedin.com" l = true
    · have hstep : socialPass d l = dinsert d "linkedin" (Value.str l) := by
        unfold socialPass
        rw [if_pos ⟨hl, hd⟩]
      rw [hstep]
      have hval : firstLinkFor "linkedin.com" (l :: rest) = l := by
        simp only [firstLinkFor, List.find?_cons_of_pos _ hl]
      rw [hval]
      exact socialLoop_keep_li rest _ l
        (fun he => by rw [he] at hl; exact absurd hl (by decide))
        (dlookup_dinsert_self d _ _)
    · have hstep : dlookup (socialPass d l) "linkedin" = some (Value.str "Not found") := by
        unfold socialPass
        split
        · rename_i hg; exact absurd hg.1 hl
        · split
          · rw [dlookup_dinsert_ne _ _ _ _ (by decide)]; exact hd
          · split
            · rw [dlookup_dinsert_ne _ _ _ _ (by decide)]; exact hd
            · exact hd
      rw [ih _ hstep]
      simp only [firstLinkFor, List.find?_cons_of_neg _ hl]

/-- While the facebook field is still the sentinel and every link mentions at
most one platform domain, the loop adopts the first link containing
`facebook.com`. -/
lemma socialLoop_first_fb (links : List String) (d : Dict)
    (hd : dlookup d "facebook" = some (Value.str "Not found"))
    (hA : links.all atMostOneDomain = true) :
    dlookup (socialLoop links d) "facebook" =
      some (Value.str (firstLinkFor "facebook.com" links)) := by
  induction links generalizing d with
  | nil => simpa [firstLinkFor, List.find?] using hd
  | cons l rest ih =>
    simp only [List.all_cons, Bool.and_eq_true] at hA
    obtain ⟨hA1, hArest⟩ := hA
    show dlookup (socialLoop rest (socialPass d l)) "facebook" = _
    by_cases hl : strIn "facebook.com" l = true
    · have hli : strIn "linkedin.com" l = false := amo_fb_li l hA1 hl
      have hstep : socialPass d l = dinsert d "facebook" (Value.str l) := by
        unfold socialPass
        rw [if_neg (fun hg => by rw [hg.1] at hli; cases hli), if_pos ⟨hl, hd⟩]
      rw [hstep]
      have hval : firstLinkFor "facebook.com" (l :: rest) = l := by
        simp only [firstLinkFor, List.find?_cons_of_pos _ hl]
      rw [hval]
      exact socialLoop_keep_fb rest _ l
        (fun he => by rw [he] at hl; exact absurd hl (by decide))
        (dlookup_dinsert_self d _ _)
    · have hstep : dlookup (socialPass d l) "facebook" = some (Value.str "Not found") := by
        unfold socialPass
        split
        · rw [dlookup_dinsert_ne _ _ _ _ (by decide)]; exact hd
        · split
          · rename_i hg; exact absurd hg.1 hl
          · split
            · rw [dlookup_dinsert_ne _ _ _ _ (by decide)]; exact hd
            · exact hd
      rw [ih _ hstep hArest]
      simp only [firstLinkFor, List.find?_cons_of_neg _ hl]

/-- While the twitter field is still the sentinel and every link mentions at
most one platform domain, the loop adopts the first link containing
`twitter.com`. -/
lemma socialLoop_first_tw (links : List String) (d : Dict)
    (hd : dlookup d "twitter" = some (Value.str "Not found"))
    (hA : links.all atMostOneDomain = true) :
    dlookup (socialLoop links d) "twitter" =
      some (Value.str (firstLinkFor "twitter.com" links)) := by
  induction links generalizing d with
  | nil => simpa [firstLinkFor, List.find?] using hd
  | cons l rest ih =>
    simp only [List.all_cons, Bool.and_eq_true] at hA
    obtain ⟨hA1, hArest⟩ := hA
    show dlookup (socialLoop rest (socialPass d l)) "twitter" = _
    by_cases hl : strIn "twitter.com" l = true
    · have hli : strIn "linkedin.com" l = false := amo_tw_li l hA1 hl
      have hfb : strIn "facebook.com" l = false := amo_tw_fb l hA1 hl
      have hstep : socialPass d l = dinsert d "twitter" (Value.str l) := by
        unfold socialPass
        rw [if_neg (fun hg => by rw [hg.1] at hli; cases hli),
          if_neg (fun hg => by rw [hg.1] at hfb; cases hfb), if_pos ⟨hl, hd⟩]
      rw [hstep]
      have hval : firstLinkFor "twitter.com" (l :: rest) = l := by
        simp only [firstLinkFor, List.find?_cons_of_pos _ hl]
      rw [hval]
      exact socialLoop_keep_tw rest _ l
        (fun he => by rw [he] at hl; exact absurd hl (by decide))
        (dlookup_dinsert_self d _ _)
    · have hstep : dlookup (socialPass d l) "twitter" = some (Value.str "Not found") := by
        unfold socialPass
        split
        · rw [dlookup_dinsert_ne _ _ _ _ (by decide)]; exact hd
        · split
          · rw [dlookup_dinsert_ne _ _ _ _ (by decide)]; exact hd
          · split
            · rename_i hg; exact absurd hg.1 hl
            · exact hd
      rw [ih _ hstep hArest]
      simp only [firstLinkFor, List.find?_cons_of_neg _ hl]

/-- The section/tenure phase never touches the social keys. -/
lemma dlookup_postSocial_social (text : String) (y : Int) (d : Dict) (p : String)
    (hp : p = "linkedin" ∨ p = "facebook" ∨ p = "twitter") :
    dlookup (postSocial text y d) p = dlookup d p := by
  obtain rfl | rfl | rfl := hp <;>
  · simp only [postSocial, postCommon]
    rw [dlookup_dinsert_ne _ _ _ _ (by decide), dlookup_dinsert_ne _ _ _ _ (by decide),
      dlookup_dinsert_ne _ _ _ _ (by decide), dlookup_dinsert_ne _ _ _ _ (by decide),
      dlookup_dinsert_ne _ _ _ _ (by decide), dlookup_dinsert_ne _ _ _ _ (by decide),
      dlookup_dinsert_ne _ _ _ _ (by decide), dlookup_dinsert_ne _ _ _ _ (by decide),
      dlookup_dinsert_ne _ _ _ _ (by decide), dlookup_dinsert_ne _ _ _ _ (by decide),
      dlookup_dinsert_ne _ _ _ _ (by decide), dlookup_dinsert_ne _ _ _ _ (by decide),
      dlookup_dinsert_ne _ _ _ _ (by decide)]

/-- C7 counterexample: the first link contains `facebook.com` (inside a
linkedin share URI), but — because the loop's `break` hands each link to at
most one platform — the facebook field ends up holding the second link, not
the first URI containing the domain. -/
theorem c7_counterexample :
    strIn "facebook.com" "https://linkedin.com/share?u=https://facebook.com/y" = true ∧
      dlookup (parse_resume 2024 ""
          ["https://linkedin.com/share?u=https://facebook.com/y", "https://facebook.com/y"])
          "facebook" = some (Value.str "https://facebook.com/y") ∧
      ("https://facebook.com/y" : String) ≠
        "https://linkedin.com/share?u=https://facebook.com/y" :=
  ⟨by decide, rfl, by decide⟩

/-- C7 (amended): when every supplied link contains at most one platform
domain substring — each link is handed to the single platform it matches —
a platform whose text-pattern guess is still the sentinel adopts, verbatim,
the first link of the list containing its domain (the sentinel if there is
none), and later links never overwrite it. -/
theorem c7_first_link_adopted (y : Int) (t : String) (links : List String)
    (hA : links.all atMostOneDomain = true) :
    dlookup (parse_resume y t links) "linkedin" =
        some (Value.str (firstLinkFor "linkedin.com" links)) ∧
      dlookup (parse_resume y t links) "facebook" =
        some (Value.str (firstLinkFor "facebook.com" links)) ∧
      dlookup (parse_resume y t links) "twitter" =
        some (Value.str (firstLinkFor "twitter.com" links)) := by
  refine ⟨?_, ?_, ?_⟩
  · show dlookup (postSocial (unidecode t) y (socialLoop links (preSocial (unidecode t))))
        "linkedin" = _
    rw [dlookup_postSocial_social _ _ _ _ (Or.inl rfl)]
    exact socialLoop_first_li links (preSocial (unidecode t)) rfl
  · show dlookup (postSocial (unidecode t) y (socialLoop links (preSocial (unidecode t))))
        "facebook" = _
    rw [dlookup_postSocial_social _ _ _ _ (Or.inr (Or.inl rfl))]
    exact socialLoop_first_fb links (preSocial (unidecode t)) rfl hA
  · show dlookup (postSocial (unidecode t) y (socialLoop links (preSocial (unidecode t))))
        "twitter" = _
    rw [dlookup_postSocial_social _ _ _ _ (Or.inr (Or.inr rfl))]
    exact socialLoop_first_tw links (preSocial (unidecode t)) rfl hA

/-- Witness for C7 with the spec's own example link. -/
theorem c7_first_link_adopted_witness :
    (["https://linkedin.com/in/janedoe"].all atMostOneDomain = true) ∧
      dlookup (parse_resume 2024 "resume body" ["https://linkedin.com/in/janedoe"])
          "linkedin" = some (Value.str "https://linkedin.com/in/janedoe") :=
  ⟨by decide,
    (c7_first_link_adopted 2024 "resume body" ["https://linkedin.com/in/janedoe"]
      (by decide)).1⟩
